import Mathlib

set_option maxRecDepth 100000

/-!
Shallow embedding of the quantum-chess server core:
`apps/server/src/chess.ts` (ClassicalBoard), `apps/server/src/quantum-state.ts`
(QuantumStateManager) and the `move` case of the websocket handler in
`apps/server/src/index.ts`.  TypeScript numbers on board coordinates are
modelled as `Int`; the float probability `1.0 / positions.length` is modelled
as the exact rational `1 / n`.  JS `Map` (insertion ordered, first-match
scans) is modelled as an association list.
-/

namespace QC

inductive Color
  | white
  | black
deriving DecidableEq

/-- `color === 'white' ? 'black' : 'white'` as it appears throughout the source. -/
def otherColor : Color → Color
  | Color.white => Color.black
  | Color.black => Color.white

inductive PieceType
  | pawn
  | knight
  | bishop
  | rook
  | queen
  | king
deriving DecidableEq

structure Piece where
  type : PieceType
  color : Color
deriving DecidableEq

structure Position where
  row : Int
  col : Int
deriving DecidableEq

structure Move where
  from' : Position
  to' : Position
deriving DecidableEq

structure MoveResult where
  success : Bool
  wasCapture : Bool
  wasCheck : Bool
  capturedPiece : Option Piece := none
deriving DecidableEq

/-- The 8x8 array `(Piece | null)[][]`, row-major. -/
abbrev Board := List (List (Option Piece))

/-- `ClassicalBoard.isValidPosition`. -/
def isValidPosition (pos : Position) : Bool :=
  0 ≤ pos.row && pos.row < 8 && 0 ≤ pos.col && pos.col < 8

/-- Read `this.board[row][col]` guarded by `isValidPosition` (as in `getPiece`). -/
def boardGet (b : Board) (pos : Position) : Option Piece :=
  if isValidPosition pos then
    match b.get? pos.row.toNat with
    | some r =>
      match r.get? pos.col.toNat with
      | some cell => cell
      | none => none
    | none => none
  else none

/-- `setPiece`: write guarded by `isValidPosition`; out of range is a no-op. -/
def boardSet (b : Board) (pos : Position) (p : Option Piece) : Board :=
  if isValidPosition pos then
    match b.get? pos.row.toNat with
    | some r => b.set pos.row.toNat (r.set pos.col.toNat p)
    | none => b
  else b

structure ClassicalBoard where
  board : Board
  currentTurn : Color
deriving DecidableEq

def ClassicalBoard.getPiece (cb : ClassicalBoard) (pos : Position) : Option Piece :=
  boardGet cb.board pos

/-- One starting back rank, as laid out by `initializeBoard`. -/
def backRank (c : Color) : List (Option Piece) :=
  [some ⟨PieceType.rook, c⟩, some ⟨PieceType.knight, c⟩, some ⟨PieceType.bishop, c⟩,
   some ⟨PieceType.queen, c⟩, some ⟨PieceType.king, c⟩, some ⟨PieceType.bishop, c⟩,
   some ⟨PieceType.knight, c⟩, some ⟨PieceType.rook, c⟩]

def pawnRank (c : Color) : List (Option Piece) :=
  List.replicate 8 (some ⟨PieceType.pawn, c⟩)

def emptyRank : List (Option Piece) := List.replicate 8 none

/-- The starting position built by the `ClassicalBoard` constructor. -/
def startBoard : Board :=
  [backRank Color.white, pawnRank Color.white,
   emptyRank, emptyRank, emptyRank, emptyRank,
   pawnRank Color.black, backRank Color.black]

def startCB : ClassicalBoard := ⟨startBoard, Color.white⟩

/-- All 64 squares in the row-major order every scan in the source uses. -/
def allSquares : List Position :=
  (List.range 8).flatMap fun r => (List.range 8).map fun c => ⟨(r : Int), (c : Int)⟩

/-- `ClassicalBoard.isValidPieceMove`. -/
def isValidPieceMove (cb : ClassicalBoard) (m : Move) (piece : Piece) : Bool :=
  let dx := m.to'.col - m.from'.col
  let dy := m.to'.row - m.from'.row
  let absDx := dx.natAbs
  let absDy := dy.natAbs
  match piece.type with
  | PieceType.pawn =>
    let direction : Int := if piece.color = Color.white then 1 else -1
    let startRow : Int := if piece.color = Color.white then 1 else 6
    if dx = 0 && dy = direction && (cb.getPiece m.to').isNone then true
    else if dx = 0 && dy = 2 * direction && m.from'.row = startRow
        && (cb.getPiece m.to').isNone
        && (cb.getPiece ⟨m.from'.row + direction, m.from'.col⟩).isNone then true
    else if absDx = 1 && dy = direction && (cb.getPiece m.to').isSome then true
    else false
  | PieceType.knight => (absDx = 2 && absDy = 1) || (absDx = 1 && absDy = 2)
  | PieceType.bishop => absDx = absDy && absDx > 0
  | PieceType.rook => (dx = 0 && dy ≠ 0) || (dx ≠ 0 && dy = 0)
  | PieceType.queen =>
    (absDx = absDy && absDx > 0) || (dx = 0 && dy ≠ 0) || (dx ≠ 0 && dy = 0)
  | PieceType.king =>
    if absDx ≤ 1 && absDy ≤ 1 then true
    -- castling stub from the source: `// TODO: Check castling conditions` then `return true`
    else if absDy = 0 && absDx = 2 then true
    else false

/-- The `while (currentRow !== move.to'.row || currentCol !== move.to'.col)` walk of
`isPathClear`, with fuel; every call site has the pattern already validated, so
the walk is axis- or diagonal-aligned and the fuel is never exhausted. -/
def pathClearLoop (cb : ClassicalBoard) (to' : Position) (dy dx : Int) :
    Nat → Int → Int → Bool
  | 0, _, _ => true
  | fuel + 1, r, c =>
    if r = to'.row && c = to'.col then true
    else if (cb.getPiece ⟨r, c⟩).isSome then false
    else pathClearLoop cb to' dy dx fuel (r + dy) (c + dx)

/-- `ClassicalBoard.isPathClear`. -/
def isPathClear (cb : ClassicalBoard) (m : Move) (piece : Piece) : Bool :=
  match piece.type with
  | PieceType.knight => true
  | PieceType.king => true
  | PieceType.pawn => true
  | _ =>
    let dx := (m.to'.col - m.from'.col).sign
    let dy := (m.to'.row - m.from'.row).sign
    pathClearLoop cb m.to' dy dx
      ((m.to'.row - m.from'.row).natAbs + (m.to'.col - m.from'.col).natAbs + 1)
      (m.from'.row + dy) (m.from'.col + dx)

/-- `ClassicalBoard.isValidMove`. -/
def isValidMove (cb : ClassicalBoard) (m : Move) : Bool :=
  match cb.getPiece m.from' with
  | none => false
  | some piece =>
    match cb.getPiece m.to' with
    | some target =>
      if target.color = piece.color then false
      else isValidPieceMove cb m piece && isPathClear cb m piece
    | none => isValidPieceMove cb m piece && isPathClear cb m piece

/-- King scan of `isInCheck`: first king of `color` in row-major order. -/
def findKing (cb : ClassicalBoard) (color : Color) : Option Position :=
  allSquares.find? fun p =>
    match cb.getPiece p with
    | some piece => piece.type = PieceType.king && piece.color = color
    | none => false

/-- `ClassicalBoard.isInCheck`: consults only the board. -/
def isInCheck (cb : ClassicalBoard) (color : Color) : Bool :=
  match findKing cb color with
  | none => false
  | some kingPos =>
    let opponentColor := otherColor color
    allSquares.any fun sq =>
      match cb.getPiece sq with
      | some piece =>
        piece.color = opponentColor
          && isValidPieceMove cb ⟨sq, kingPos⟩ piece
          && isPathClear cb ⟨sq, kingPos⟩ piece
      | none => false

/-- `ClassicalBoard.makeMove`, as a pure state transformer. -/
def ClassicalBoard.makeMove (cb : ClassicalBoard) (m : Move) :
    ClassicalBoard × MoveResult :=
  match cb.getPiece m.from' with
  | none => (cb, ⟨false, false, false, none⟩)
  | some piece =>
    if piece.color ≠ cb.currentTurn then (cb, ⟨false, false, false, none⟩)
    else if ¬ isValidMove cb m then (cb, ⟨false, false, false, none⟩)
    else
      let targetPiece := cb.getPiece m.to'
      let wasCapture := targetPiece.isSome
      let b1 := boardSet (boardSet cb.board m.to' (some piece)) m.from' none
      let b2 :=
        if piece.type = PieceType.king && (m.to'.col - m.from'.col).natAbs = 2 then
          let isKingside := decide (m.from'.col < m.to'.col)
          let rookFromCol : Int := if isKingside then 7 else 0
          let rookToCol : Int := if isKingside then m.to'.col - 1 else m.to'.col + 1
          match boardGet b1 ⟨m.from'.row, rookFromCol⟩ with
          | some rook =>
            boardSet (boardSet b1 ⟨m.from'.row, rookToCol⟩ (some rook))
              ⟨m.from'.row, rookFromCol⟩ none
          | none => b1
        else b1
      let opponentColor := otherColor cb.currentTurn
      let wasCheck := isInCheck ⟨b2, cb.currentTurn⟩ opponentColor
      (⟨b2, opponentColor⟩, ⟨true, wasCapture, wasCheck, targetPiece⟩)

/-- `ClassicalBoard.getPieces`: all pieces of a color, row-major. -/
def getPieces (cb : ClassicalBoard) (color : Color) : List (Piece × Position) :=
  allSquares.filterMap fun pos =>
    match cb.getPiece pos with
    | some piece => if piece.color = color then some (piece, pos) else none
    | none => none

/-- `ClassicalBoard.getValidMoves`. -/
def getValidMoves (cb : ClassicalBoard) (from' : Position) : List Position :=
  allSquares.filter fun to' => isValidMove cb ⟨from', to'⟩

/-- `ClassicalBoard.getQuietMoves`: valid non-capture destinations whose
simulated commit does not put `opponentColor` in check. -/
def getQuietMoves (cb : ClassicalBoard) (from' : Position) (opponentColor : Color) :
    List Position :=
  (getValidMoves cb from').filter fun to' =>
    if (cb.getPiece to').isSome then false
    else
      match cb.getPiece from' with
      | none => false
      | some piece =>
        let sim : ClassicalBoard :=
          ⟨boardSet (boardSet cb.board to' (some piece)) from' none, cb.currentTurn⟩
        ¬ isInCheck sim opponentColor

/-!
Quantum state (`quantum-state.ts`).  The string keys of the two JS `Map`s have
three mutually non-overlapping shapes — `"r,c"` from `initialize`,
`"type-r,c"` from the collapse branches and `"type-superposition-r,c"` from
the superposition branch — and each shape determines its parameters, so an
inductive key type is an injective model of the key strings.
-/

inductive QKey
  | keyInit (row col : Int)
  | keyColl (t : PieceType) (row col : Int)
  | keySup (t : PieceType) (row col : Int)
deriving DecidableEq

structure QuantumPiece where
  piece : Piece
  positions : List Position
  probability : ℚ
deriving DecidableEq

/-- A JS `Map<string, QuantumPiece>` in insertion order. -/
abbrev QMap := List (QKey × QuantumPiece)

/-- `Map.set`: update in place if the key exists, else append. -/
def mapSet (m : QMap) (k : QKey) (v : QuantumPiece) : QMap :=
  if m.any fun e => e.1 = k then
    m.map fun e => if e.1 = k then (k, v) else e
  else m ++ [(k, v)]

/-- `Map.delete`. -/
def mapDelete (m : QMap) (k : QKey) : QMap :=
  m.filter fun e => e.1 ≠ k

structure QuantumStateManager where
  whiteQuantumPieces : QMap
  blackQuantumPieces : QMap
deriving DecidableEq

def quantumPiecesOf (q : QuantumStateManager) : Color → QMap
  | Color.white => q.whiteQuantumPieces
  | Color.black => q.blackQuantumPieces

def withQuantumPieces (q : QuantumStateManager) : Color → QMap → QuantumStateManager
  | Color.white, m => { q with whiteQuantumPieces := m }
  | Color.black, m => { q with blackQuantumPieces := m }

def posMemB (positions : List Position) (p : Position) : Bool :=
  positions.any fun pos => pos.row = p.row && pos.col = p.col

/-- `QuantumStateManager.initialize`: every piece starts collapsed at its real
square, keyed by `getPieceKey` (position only), white map filled first. -/
def initQuantumState (cb : ClassicalBoard) : QuantumStateManager :=
  let fill : Color → QMap := fun c =>
    (getPieces cb c).foldl
      (fun m pp =>
        mapSet m (QKey.keyInit pp.2.row pp.2.col) ⟨pp.1, [pp.2], 1⟩)
      []
  ⟨fill Color.white, fill Color.black⟩

/-- `QuantumStateManager.updateAfterMove`. -/
def updateAfterMove (q : QuantumStateManager) (from' to' : Position)
    (movingPiece : Piece) (wasCapture wasCheck : Bool)
    (capturedPosition : Option Position) (ghostPositions : List Position) :
    QuantumStateManager :=
  let quantumPieces := quantumPiecesOf q movingPiece.color
  -- find and remove the record that was at `from'` (first type/color match)
  let keyToRemove :=
    (quantumPieces.find? fun e =>
        e.2.piece.type = movingPiece.type && e.2.piece.color = movingPiece.color
          && posMemB e.2.positions from').map (·.1)
  let quantumPieces :=
    match keyToRemove with
    | some k => mapDelete quantumPieces k
    | none => quantumPieces
  let shouldCollapse :=
    wasCapture || wasCheck || movingPiece.type = PieceType.pawn
  let quantumPieces :=
    if shouldCollapse then
      mapSet quantumPieces (QKey.keyColl movingPiece.type to'.row to'.col)
        ⟨movingPiece, [to'], 1⟩
    else if ghostPositions.length > 0 then
      mapSet quantumPieces (QKey.keySup movingPiece.type to'.row to'.col)
        ⟨movingPiece, ghostPositions, mkRat 1 ghostPositions.length⟩
    else
      mapSet quantumPieces (QKey.keyColl movingPiece.type to'.row to'.col)
        ⟨movingPiece, [to'], 1⟩
  let q := withQuantumPieces q movingPiece.color quantumPieces
  -- if capture, remove the first opponent record with probability at the square
  match wasCapture, capturedPosition with
  | true, some cp =>
    let opponentColor := otherColor movingPiece.color
    let capturedPieces := quantumPiecesOf q opponentColor
    let capturedKeyToRemove :=
      (capturedPieces.find? fun e => posMemB e.2.positions cp).map (·.1)
    match capturedKeyToRemove with
    | some k => withQuantumPieces q opponentColor (mapDelete capturedPieces k)
    | none => q
  | _, _ => q

/-- `QuantumStateManager.getOpponentQuantumState`. -/
def getOpponentQuantumState (q : QuantumStateManager) (playerColor : Color) :
    List QuantumPiece :=
  (quantumPiecesOf q (otherColor playerColor)).map (·.2)

/-- `QuantumStateManager.hasOpponentGhost`. -/
def hasOpponentGhost (q : QuantumStateManager) (position : Position)
    (playerColor : Color) : Bool :=
  (quantumPiecesOf q (otherColor playerColor)).any fun e =>
    posMemB e.2.positions position

/-- `QuantumStateManager.hasOwnGhost` (only superposed records count). -/
def hasOwnGhost (q : QuantumStateManager) (position : Position)
    (playerColor : Color) : Bool :=
  (quantumPiecesOf q playerColor).any fun e =>
    e.2.positions.length > 1 && posMemB e.2.positions position

/-- `QuantumStateManager.getOwnGhostPiece`: first superposed own record with a
candidate at the square. -/
def getOwnGhostPiece (q : QuantumStateManager) (position : Position)
    (playerColor : Color) : Option QuantumPiece :=
  ((quantumPiecesOf q playerColor).find? fun e =>
      e.2.positions.length > 1 && posMemB e.2.positions position).map (·.2)

/-- `QuantumStateManager.collapsePiece`: looks the "true position" up by
type/color scan over the live board (`this.board.getPieces(...).find(...)`),
removes every record of that type/color and re-adds a single collapsed one. -/
def collapsePiece (board : ClassicalBoard) (q : QuantumStateManager)
    (piece : Piece) : QuantumStateManager :=
  let quantumPieces := quantumPiecesOf q piece.color
  let truePosition :=
    ((getPieces board piece.color).find? fun pp =>
        pp.1.type = piece.type && pp.1.color = piece.color).map (·.2)
  match truePosition with
  | none => q
  | some tp =>
    let keysToRemove :=
      (quantumPieces.filter fun e =>
          e.2.piece.type = piece.type && e.2.piece.color = piece.color).map (·.1)
    let quantumPieces :=
      keysToRemove.foldl (fun m k => mapDelete m k) quantumPieces
    let quantumPieces :=
      mapSet quantumPieces (QKey.keyColl piece.type tp.row tp.col) ⟨piece, [tp], 1⟩
    withQuantumPieces q piece.color quantumPieces

/-!
The `move` case of the websocket handler (`index.ts`).  `makeMove` is called
there with an extra `allowProbing` argument that the one-parameter
`ClassicalBoard.makeMove` of `chess.ts` silently ignores (JS drops extra
arguments), so the board commit itself never sees the flag.
-/

structure Room where
  board : ClassicalBoard
  quantumState : QuantumStateManager
deriving DecidableEq

def startRoom : Room := ⟨startCB, initQuantumState startCB⟩

/-- The probe-resolution loop: first opponent record with a ghost at `to'` is
collapsed, then `break`. -/
def probeCollapse (board : ClassicalBoard) (q : QuantumStateManager)
    (playerColor : Color) (to' : Position) : QuantumStateManager :=
  match (getOpponentQuantumState q playerColor).find? fun qp =>
      posMemB qp.positions to' with
  | some qp => collapsePiece board q qp.piece
  | none => q

/-- The `move` message case: returns the updated room and whether the move was
accepted (`false` = `move_rejected` was sent and nothing changed). -/
def handleMove (room : Room) (playerColor : Color) (from' to' : Position) :
    Room × Bool :=
  match room.board.getPiece from' with
  | none => (room, false)
  | some movingPiece =>
    let opponentColor := otherColor playerColor
    let ghostPositions := getQuietMoves room.board from' opponentColor
    let allowProbing := hasOpponentGhost room.quantumState to' playerColor
    let res := room.board.makeMove ⟨from', to'⟩
    if res.2.success = false then (room, false)
    else
      let board1 := res.1
      let moveResult := res.2
      -- self-ghost collapse
      let qs1 :=
        match getOwnGhostPiece room.quantumState to' playerColor with
        | some ownGhostPiece => collapsePiece board1 room.quantumState ownGhostPiece.piece
        | none => room.quantumState
      -- opponent ghost probing (probe on an empty square)
      let qs2 :=
        if allowProbing && !moveResult.wasCapture then
          probeCollapse board1 qs1 playerColor to'
        else qs1
      -- castling never enters superposition
      let isCastle :=
        movingPiece.type = PieceType.king && (to'.col - from'.col).natAbs = 2
      let modifiedWasCapture := if isCastle then true else moveResult.wasCapture
      let modifiedWasCheck := moveResult.wasCheck
      let ghostPositionsForQuantum := if isCastle then [] else ghostPositions
      let qs3 :=
        updateAfterMove qs2 from' to' movingPiece modifiedWasCapture
          modifiedWasCheck (if moveResult.wasCapture then some to' else none)
          ghostPositionsForQuantum
      (⟨board1, qs3⟩, true)

/-- Fold a list of `(playerColor, from, to)` requests through the handler. -/
def applyMoves (room : Room) (moves : List (Color × Position × Position)) : Room :=
  moves.foldl (fun r mv => (handleMove r mv.1 mv.2.1 mv.2.2).1) room

/-- `isInCheck` lifted to the full game state held in a `Room`; the quantum
component is simply unused, as in the source. -/
def Room.inCheck (r : Room) (c : Color) : Bool := isInCheck r.board c

/-!
Concrete reachable games used below.  Squares are `⟨row, col⟩` with row 0 =
white back rank and col 0 = file a, so e.g. `⟨0,6⟩` is g1 and `⟨5,2⟩` is c6.
-/

open Color PieceType in
/-- 1.Nf3 Na6 (black record gets candidates a6,c6) 2.Nd4 h6 3.Nxc6?! — white
probes the illusory ghost on c6. -/
def traceC1 : List (Color × Position × Position) :=
  [(white, ⟨0,6⟩, ⟨2,5⟩),
   (black, ⟨7,1⟩, ⟨5,0⟩),
   (white, ⟨2,5⟩, ⟨3,3⟩),
   (black, ⟨6,7⟩, ⟨5,7⟩),
   (white, ⟨3,3⟩, ⟨5,2⟩)]

def stateC1 : Room := applyMoves startRoom traceC1

open Color PieceType in
/-- Two white knights: A (g1-knight) ends on g5 with record
`{g1,d4,h4,e5,g5}`, B (b1-knight) then lands on e5 — a candidate square of
A's record. -/
def traceC2 : List (Color × Position × Position) :=
  [(white, ⟨0,6⟩, ⟨2,5⟩),
   (black, ⟨6,7⟩, ⟨5,7⟩),
   (white, ⟨0,1⟩, ⟨2,0⟩),
   (black, ⟨5,7⟩, ⟨4,7⟩),
   (white, ⟨2,5⟩, ⟨4,6⟩),
   (black, ⟨6,6⟩, ⟨5,6⟩),
   (white, ⟨2,0⟩, ⟨3,2⟩),
   (black, ⟨6,0⟩, ⟨5,0⟩),
   (white, ⟨3,2⟩, ⟨4,4⟩)]

def stateC2 : Room := applyMoves startRoom traceC2

open Color PieceType in
/-- A fully legal kingside castle: 1.e3 h6 2.Be2 g6 3.Nf3 Nc6 4.O-O — king
and rook unmoved, f1/g1 empty and unattacked. -/
def traceC3 : List (Color × Position × Position) :=
  [(white, ⟨1,4⟩, ⟨2,4⟩),
   (black, ⟨6,7⟩, ⟨5,7⟩),
   (white, ⟨0,5⟩, ⟨1,4⟩),
   (black, ⟨6,6⟩, ⟨5,6⟩),
   (white, ⟨0,6⟩, ⟨2,5⟩),
   (black, ⟨7,1⟩, ⟨5,2⟩),
   (white, ⟨0,4⟩, ⟨0,6⟩)]

def stateC3 : Room := applyMoves startRoom traceC3

open Color PieceType in
/-- 1.Nh3 h6 and then white "castles" kingside with the bishop still on f1. -/
def preC4 : Room :=
  applyMoves startRoom [(white, ⟨0,6⟩, ⟨2,7⟩), (black, ⟨6,7⟩, ⟨5,7⟩)]

def castleC4 : Room × Bool := handleMove preC4 Color.white ⟨0,4⟩ ⟨0,6⟩

open Color PieceType in
/-- 1.b4 Na6 (ghosts a6,c6) 2.b5 h6; white now wants 3.bxc6 as a probe of the
empty ghost square c6. -/
def preC5 : Room :=
  applyMoves startRoom
    [(white, ⟨1,1⟩, ⟨3,1⟩),
     (black, ⟨7,1⟩, ⟨5,0⟩),
     (white, ⟨3,1⟩, ⟨4,1⟩),
     (black, ⟨6,7⟩, ⟨5,7⟩)]

def probeC5 : Room × Bool := handleMove preC5 Color.white ⟨4,1⟩ ⟨5,2⟩

open Color PieceType in
/-- White's bishop record `{e2,d3,c4,b5,a6}` and knight record `{e2,f3,h3}`
both hold a candidate at e2; the queen then moves to e2, which collapses only
the bishop (first match), leaving the knight's stale ghost at e2; black
finally captures the queen on e2. -/
def traceC6 : List (Color × Position × Position) :=
  [(white, ⟨1,4⟩, ⟨2,4⟩),
   (black, ⟨6,7⟩, ⟨5,7⟩),
   (white, ⟨0,5⟩, ⟨2,3⟩),
   (black, ⟨6,6⟩, ⟨5,6⟩),
   (white, ⟨0,6⟩, ⟨2,5⟩),
   (black, ⟨6,1⟩, ⟨5,1⟩),
   (white, ⟨0,3⟩, ⟨1,4⟩),
   (black, ⟨7,1⟩, ⟨5,2⟩),
   (white, ⟨1,0⟩, ⟨2,0⟩),
   (black, ⟨5,2⟩, ⟨3,3⟩),
   (white, ⟨2,0⟩, ⟨3,0⟩),
   (black, ⟨3,3⟩, ⟨1,4⟩)]

def stateC6 : Room := applyMoves startRoom traceC6

open Color PieceType in
/-- The initial quantum state with the g8-knight's record replaced by a
superposition whose candidate f3 = `⟨2,5⟩` would attack the white king at e1
if a real knight stood there; the board itself is untouched. -/
def ghostQSM : QuantumStateManager :=
  withQuantumPieces (initQuantumState startCB) black
    (mapSet (quantumPiecesOf (initQuantumState startCB) black)
      (QKey.keyInit 7 6)
      ⟨⟨knight, black⟩, [⟨2,5⟩, ⟨7,6⟩], mkRat 1 2⟩)

def ghostRoom : Room := ⟨startCB, ghostQSM⟩

/-!  General lemmas about rejection paths. -/

/-- A failing `makeMove` returns the board unchanged; a succeeding one flips
the turn to the opponent. -/
theorem makeMove_frame (cb : ClassicalBoard) (m : Move) :
    ((cb.makeMove m).2.success = false → (cb.makeMove m).1 = cb) ∧
    ((cb.makeMove m).2.success = true →
      (cb.makeMove m).1.currentTurn = otherColor cb.currentTurn) := by
  unfold ClassicalBoard.makeMove
  cases cb.getPiece m.from' with
  | none => simp
  | some piece =>
    by_cases h1 : piece.color ≠ cb.currentTurn
    · simp [h1]
    · by_cases h2 : ¬ isValidMove cb m
      · simp [h1, h2]
      · simp [h1, h2]

/-- An out-of-range square always reads as empty. -/
theorem getPiece_invalid (cb : ClassicalBoard) (p : Position)
    (h : isValidPosition p = false) : cb.getPiece p = none := by
  unfold ClassicalBoard.getPiece boardGet
  simp [h]

/-- C1: the claim says a non-capturing landing on a ghost square collapses,
by id, exactly the opponent pieces whose records contain that square, never a
different piece of the same type.  In the reachable state `stateC1` white
probed the a6-knight's illusory ghost on c6; the code's type/colour-keyed
`collapsePiece` also destroyed the record of the untouched knight still
standing on g8, leaving both live black knights represented by the single
collapsed record at a6. -/
theorem C1_probe_collapses_other_same_type_piece :
    stateC1.board.getPiece ⟨7,6⟩ = some ⟨PieceType.knight, Color.black⟩ ∧
    stateC1.board.getPiece ⟨5,0⟩ = some ⟨PieceType.knight, Color.black⟩ ∧
    (stateC1.quantumState.blackQuantumPieces.filter
        (fun e => e.2.piece.type = PieceType.knight)).map (fun e => e.2.positions)
      = [[(⟨5,0⟩ : Position)]] := by decide

/-- C2: the claim says two same-colour same-type pieces that entered
superposition on different turns keep independent, separately resolvable
records.  In `stateC2` the b1-knight's landing on e5 — a candidate square of
the g5-knight's record — made `getOwnGhostPiece`/`collapsePiece` merge the
two records; afterwards the live knight on g5 has no record containing its
square at all. -/
theorem C2_same_type_records_not_independent :
    stateC2.board.getPiece ⟨4,6⟩ = some ⟨PieceType.knight, Color.white⟩ ∧
    stateC2.board.getPiece ⟨4,4⟩ = some ⟨PieceType.knight, Color.white⟩ ∧
    stateC2.quantumState.whiteQuantumPieces.all
      (fun e => ¬ posMemB e.2.positions ⟨4,6⟩) = true := by decide

/-- C3: the claim says a legal castle leaves king and rook collapsed at their
destinations with no superposition entry elsewhere, in particular none for
the rook at its original corner.  After the fully legal castle of `stateC3`
the rook really stands on f1 = `⟨0,5⟩`, yet the only h1-rook record in the
opponent view is still the initial collapsed record at h1 = `⟨0,7⟩`, and no
record mentions f1. -/
theorem C3_castle_leaves_rook_record_at_corner :
    stateC3.board.getPiece ⟨0,6⟩ = some ⟨PieceType.king, Color.white⟩ ∧
    stateC3.board.getPiece ⟨0,5⟩ = some ⟨PieceType.rook, Color.white⟩ ∧
    (stateC3.quantumState.whiteQuantumPieces.filter
        (fun e => e.2.piece.type = PieceType.rook)).map
        (fun e => (e.1, e.2.positions))
      = [(QKey.keyInit 0 0, [(⟨0,0⟩ : Position)]),
         (QKey.keyInit 0 7, [(⟨0,7⟩ : Position)])] := by decide

/-- C4: the claim says castling is accepted only when the king and rook are
unmoved, the squares between them are empty and the king's path is
unattacked, and that violations are rejected without mutation.  In `preC4`
the f1 bishop still stands between king and rook, yet the castle is accepted
and executed — and the rook is written onto f1, destroying the bishop. -/
theorem C4_illegal_castle_accepted_and_mutates :
    preC4.board.getPiece ⟨0,5⟩ = some ⟨PieceType.bishop, Color.white⟩ ∧
    castleC4.2 = true ∧
    castleC4.1.board.getPiece ⟨0,6⟩ = some ⟨PieceType.king, Color.white⟩ ∧
    castleC4.1.board.getPiece ⟨0,5⟩ = some ⟨PieceType.rook, Color.white⟩ ∧
    castleC4.1.board.getPiece ⟨0,7⟩ = none := by decide

/-- C5: the claim says a move onto an empty square carrying an opponent ghost
is accepted as a probe for any piece type, including a pawn moving
diagonally.  In `preC5` the empty square c6 = `⟨5,2⟩` carries a black ghost,
but the pawn's diagonal probe is rejected and nothing changes: `makeMove`
never receives the handler's `allowProbing` flag. -/
theorem C5_pawn_probe_rejected :
    preC5.board.getPiece ⟨5,2⟩ = none ∧
    hasOpponentGhost preC5.quantumState ⟨5,2⟩ Color.white = true ∧
    probeC5 = (preC5, false) := by decide

/-- C6: the claim says a capture removes exactly the captured piece's record
and leaves every other record unchanged.  In `stateC6` black captured the
white queen on e2; the removal scan matched the live f3-knight's stale ghost
record at e2 first and deleted it, while the captured queen's own record
survives. -/
theorem C6_capture_removes_wrong_record :
    stateC6.board.getPiece ⟨2,5⟩ = some ⟨PieceType.knight, Color.white⟩ ∧
    stateC6.board.getPiece ⟨1,4⟩ = some ⟨PieceType.knight, Color.black⟩ ∧
    stateC6.quantumState.whiteQuantumPieces.all
      (fun e => ¬ posMemB e.2.positions ⟨2,5⟩) = true ∧
    (stateC6.quantumState.whiteQuantumPieces.filter
        (fun e => e.2.piece.type = PieceType.queen)).map (fun e => e.2.positions)
      = [[(⟨1,4⟩ : Position)]] := by decide

/-- C7: the claim says in every reachable state each live piece corresponds
to exactly one superposition record of its colour.  `stateC1` is reachable
from the initial room, yet the live black knight on g8 has no record whose
candidates contain g8 — its record was absorbed by the type-keyed collapse
of the other knight. -/
theorem C7_live_piece_without_record :
    stateC1.board.getPiece ⟨7,6⟩ = some ⟨PieceType.knight, Color.black⟩ ∧
    stateC1.quantumState.blackQuantumPieces.all
      (fun e => ¬ posMemB e.2.positions ⟨7,6⟩) = true := by decide

/-- C8: a move request the handler rejects leaves the whole room — board,
turn and both superposition maps — unchanged, and a completed move flips the
turn to the opponent. -/
theorem C8_rejection_without_mutation (room : Room) (pc : Color) (f t : Position) :
    ((handleMove room pc f t).2 = false → (handleMove room pc f t).1 = room) ∧
    ((handleMove room pc f t).2 = true →
      (handleMove room pc f t).1.board.currentTurn
        = otherColor room.board.currentTurn) := by
  unfold handleMove
  cases hg : room.board.getPiece f with
  | none => simp
  | some mp =>
    by_cases hs : (room.board.makeMove ⟨f, t⟩).2.success = false
    · simp [hs]
    · have hs' : (room.board.makeMove ⟨f, t⟩).2.success = true := by
        revert hs; cases (room.board.makeMove ⟨f, t⟩).2.success <;> simp
      simp only [hs, if_false, hs']
      refine ⟨by simp, fun _ => ?_⟩
      exact (makeMove_frame room.board ⟨f, t⟩).2 hs'

/-- C8 witness: moving from the empty square d4 in the initial room is
rejected and changes nothing; the opening knight move is accepted and hands
the turn to black. -/
theorem C8_rejection_without_mutation_witness :
    (handleMove startRoom Color.white ⟨3,3⟩ ⟨4,4⟩).1 = startRoom ∧
    (handleMove startRoom Color.white ⟨0,6⟩ ⟨2,5⟩).1.board.currentTurn
      = otherColor startRoom.board.currentTurn :=
  ⟨(C8_rejection_without_mutation startRoom Color.white ⟨3,3⟩ ⟨4,4⟩).1 (by decide),
   (C8_rejection_without_mutation startRoom Color.white ⟨0,6⟩ ⟨2,5⟩).2 (by decide)⟩

/-- C9: `isInCheck` reads only the classical board, so two rooms with the
same board and arbitrarily different superposition state agree on every check
query; concretely, in `ghostRoom` a black knight ghost sits on f3 — a square
from which the knight movement pattern reaches the white king on e1 — with
no real piece there, and white is not in check. -/
theorem C9_check_ignores_superposition :
    (∀ (b : ClassicalBoard) (q1 q2 : QuantumStateManager) (c : Color),
        Room.inCheck ⟨b, q1⟩ c = Room.inCheck ⟨b, q2⟩ c) ∧
    (ghostRoom.board.getPiece ⟨2,5⟩ = none ∧
     hasOpponentGhost ghostRoom.quantumState ⟨2,5⟩ Color.white = true ∧
     isValidPieceMove ghostRoom.board ⟨⟨2,5⟩, ⟨0,4⟩⟩ ⟨PieceType.knight, Color.black⟩
       = true ∧
     ghostRoom.board.getPiece ⟨0,4⟩ = some ⟨PieceType.king, Color.white⟩ ∧
     Room.inCheck ghostRoom Color.white = false) :=
  ⟨fun _ _ _ _ => rfl, by decide⟩

/-- C10 counterexample: the claim says `makeMove` fails and mutates nothing
whenever the source or the destination is out of range.  A knight move from
g1 to the out-of-range square `⟨1,8⟩` matches the knight pattern, is
accepted, flips the turn, and erases the knight (the destination write is
discarded by the bounds guard). -/
theorem C10_out_of_range_destination_accepted :
    isValidPosition ⟨1,8⟩ = false ∧
    (startCB.makeMove ⟨⟨0,6⟩, ⟨1,8⟩⟩).2.success = true ∧
    (startCB.makeMove ⟨⟨0,6⟩, ⟨1,8⟩⟩).1.getPiece ⟨0,6⟩ = none ∧
    (startCB.makeMove ⟨⟨0,6⟩, ⟨1,8⟩⟩).1 ≠ startCB := by decide

/-- C10 amended: `getPiece` on any out-of-range square returns `none`, and a
move whose source is out of range fails with board and turn unchanged; but a
move whose in-range source piece's movement pattern matches an out-of-range
destination can be accepted, in which case the piece is erased and the turn
flips. -/
theorem C10_bounds_behaviour :
    (∀ (cb : ClassicalBoard) (p : Position),
        isValidPosition p = false → cb.getPiece p = none) ∧
    (∀ (cb : ClassicalBoard) (m : Move), isValidPosition m.from' = false →
        (cb.makeMove m).2.success = false ∧ (cb.makeMove m).1 = cb) ∧
    ((startCB.makeMove ⟨⟨0,6⟩, ⟨1,8⟩⟩).2.success = true ∧
     (startCB.makeMove ⟨⟨0,6⟩, ⟨1,8⟩⟩).1.getPiece ⟨0,6⟩ = none ∧
     (startCB.makeMove ⟨⟨0,6⟩, ⟨1,8⟩⟩).1.currentTurn
       = otherColor startCB.currentTurn) := by
  refine ⟨fun cb p h => getPiece_invalid cb p h, fun cb m h => ?_, by decide⟩
  have hnone := getPiece_invalid cb m.from' h
  unfold ClassicalBoard.makeMove
  rw [hnone]
  exact ⟨rfl, rfl⟩

/-- C10 witness: instantiating the bounds behaviour at the out-of-range
square `⟨9,9⟩`. -/
theorem C10_bounds_behaviour_witness :
    startCB.getPiece ⟨9,9⟩ = none ∧
    (startCB.makeMove ⟨⟨9,9⟩, ⟨1,1⟩⟩).1 = startCB :=
  ⟨C10_bounds_behaviour.1 startCB ⟨9,9⟩ (by decide),
   (C10_bounds_behaviour.2.1 startCB ⟨⟨9,9⟩, ⟨1,1⟩⟩ (by decide)).2⟩

end QC
